import Mathlib

/-!
# The per-node connection record of `model/server.go`

A shallow embedding of `src/model/server.go`.

* Go pointers are identities: an address, or `none` for `nil`.  Records live in a
  heap indexed by address, so two pointers may alias the same record.
* A Go call either returns or panics; `Result` records which, and the program state
  at that moment.
* `taskStreamMu` serialises the bodies of the methods.  Every method releases the
  lock it takes before it returns, so each call is one atomic step of the state; the
  lock calls only keep their nil-receiver check.
* `json.Unmarshal` and the stream's `Send` belong to other packages: both are parameters
  of the methods that call them, and the theorems hold for every behaviour of them.
* Objects created by `InitServer` get consecutive addresses from a counter in the state.
-/

namespace model

/-- Address of a heap object. -/
abbrev Addr := Nat

/-- A Go pointer: `none` is `nil`. -/
abbrev Ptr := Option Addr

/-- Identity of a live duplex stream (the dynamic value behind the interface). -/
abbrev Handle := Nat

/-- A value of interface type `pb.NezhaService_RequestTaskServer`: `none` is the nil
interface, `some h` is the stream with identity `h`.  `==` on it is identity. -/
abbrev Stream := Option Handle

/-- The object a non-nil `*pb.Task` points to, by identity. -/
abbrev Task := Nat

/-- A Go `error` value, by its text. -/
structure GoError where
  text : String
deriving DecidableEq, Repr

/-- Go's `errors.New`. -/
def errors.New (text : String) : GoError := ⟨text⟩

/-- Modelled from the spec: the embedded `Common` of `Server` is declared outside
`server.go`; the spec gives it as "Identity: a stable unique identifier". -/
structure Common where
  ID : Nat
deriving DecidableEq, Repr

/-- The `Server` struct, field by field (`taskStreamMu` aside, see the header).
`Host`, `State`, `GeoIP` are pointers, `ConfigCache` is a channel reference,
`LastActive` is a `time.Time` value. -/
structure Server where
  Common : Common
  Name : String
  UUID : String
  Note : String
  PublicNote : String
  DisplayIndex : Int
  HideForGuest : Bool
  EnableDDNS : Bool
  DDNSProfilesRaw : String
  OverrideDDNSDomainsRaw : String
  DDNSProfiles : List Nat
  OverrideDDNSDomains : List (Nat × List String)
  Host : Ptr
  State : Ptr
  GeoIP : Ptr
  LastActive : Int
  TaskStream : Stream
  ConfigCache : Ptr
  PrevTransferInSnapshot : Nat
  PrevTransferOutSnapshot : Nat
deriving DecidableEq, Repr

/-- The zero value of `Server`. -/
def zeroServer : Server :=
  { Common := ⟨0⟩, Name := "", UUID := "", Note := "", PublicNote := "",
    DisplayIndex := 0, HideForGuest := false, EnableDDNS := false,
    DDNSProfilesRaw := "", OverrideDDNSDomainsRaw := "",
    DDNSProfiles := [], OverrideDDNSDomains := [],
    Host := none, State := none, GeoIP := none, LastActive := 0,
    TaskStream := none, ConfigCache := none,
    PrevTransferInSnapshot := 0, PrevTransferOutSnapshot := 0 }

/-- Modelled from the spec: the types `Host`, `HostState` and `GeoIP` are declared outside
`server.go`; the spec gives them as "initialized to empty structures at construction time".
An object behind a runtime reference of a record: the zero value of one of these three
struct types, or a channel with its capacity and the values buffered in it. -/
inductive Object where
  | Host
  | HostState
  | GeoIP
  | Chan (cap : Nat) (buf : List Nat)
deriving DecidableEq, Repr

/-- Program state: the records on the heap, the `Send` calls made so far on streams
(oldest first), the lines written by `log.Println`, the objects created so far behind
runtime references, and the address the next created object gets. -/
structure World where
  heap : Addr → Server
  sends : List (Handle × Task)
  logs : List String
  objs : Addr → Option Object
  next : Nat

/-- Modelled from the spec: the stream type is declared outside `server.go`; the spec
gives it as "an opaque duplex handle satisfying one capability — `Send(message)`".
`Send` on stream `h` with task `t`, after the calls in the history, returns `none`
(nil error) or `some e`. -/
abbrev Transport := List (Handle × Task) → Handle → Task → Option GoError

/-- Outcome of a call: it returned `ret`, or it panicked (nil pointer dereference or
slice bounds), each with the state at that moment. -/
inductive Result (α : Type) where
  | returned (ret : α) (w : World)
  | panicked (w : World)

/-- A Go computation over the program state. -/
def Go (α : Type) : Type := World → Result α

/-- Return without touching the state. -/
def Go.pure {α : Type} (a : α) : Go α := fun w => Result.returned a w

/-- Sequencing; a panic stops the rest. -/
def Go.bind {α β : Type} (m : Go α) (f : α → Go β) : Go β := fun w =>
  match m w with
  | Result.returned a w1 => f a w1
  | Result.panicked w1 => Result.panicked w1

instance : Monad Go where
  pure := Go.pure
  bind := Go.bind

/-- A runtime panic. -/
def Go.runtimePanicked {α : Type} : Go α := fun w => Result.panicked w

/-- Read through a pointer: `*p`, panicking on nil. -/
def deref (p : Ptr) : Go Server := fun w =>
  match p with
  | none => Result.panicked w
  | some a => Result.returned (w.heap a) w

/-- Write through a pointer: `p.field = v` as an update `f` of the record, panicking on nil. -/
def assign (p : Ptr) (f : Server → Server) : Go Unit := fun w =>
  match p with
  | none => Result.panicked w
  | some a =>
    Result.returned () { w with heap := fun b => if b = a then f (w.heap a) else w.heap b }

/-- Taking or releasing `p.taskStreamMu` (any of `Lock`, `Unlock`, `RLock`,
`RUnlock`): touches the record, so a nil `p` panics; otherwise no state change. -/
def taskStreamMu (p : Ptr) : Go Unit := fun w =>
  match p with
  | none => Result.panicked w
  | some _ => Result.returned () w

/-- The call `stream.Send(task)`: asks the transport, and records the call. -/
def Send (env : Transport) (stream : Handle) (task : Task) : Go (Option GoError) := fun w =>
  Result.returned (env w.sends stream task) { w with sends := w.sends ++ [(stream, task)] }

/-- Method `func (s *Server) HasTaskStream() bool`: the read lock is taken, its release is
deferred, and the result is `s.TaskStream != nil`. -/
def HasTaskStream (s : Ptr) : Go Bool := do
  taskStreamMu s
  let r ← deref s
  Go.pure (r.TaskStream != none)

/-- Method `func (s *Server) SetTaskStream(stream pb.NezhaService_RequestTaskServer)`:
lock, store, unlock. -/
def SetTaskStream (s : Ptr) (stream : Stream) : Go Unit := do
  taskStreamMu s
  assign s (fun r => { r with TaskStream := stream })
  taskStreamMu s

/-- Method `func (s *Server) ClearTaskStreamIfMatch(stream pb.NezhaService_RequestTaskServer)`:
lock, clear the slot when it is identical to `stream`, unlock. -/
def ClearTaskStreamIfMatch (s : Ptr) (stream : Stream) : Go Unit := do
  taskStreamMu s
  let r ← deref s
  if r.TaskStream = stream then
    assign s (fun r => { r with TaskStream := none })
  taskStreamMu s

/-- Method `func (s *Server) SendTask(task *pb.Task) error`; the result is the returned
`error`, `none` for nil.  The nil-task check comes before the lock is taken; the unlock is
deferred. -/
def SendTask (env : Transport) (s : Ptr) (task : Option Task) : Go (Option GoError) :=
  match task with
  | none => Go.pure (some (errors.New "task is nil"))
  | some t => do
    taskStreamMu s
    let r ← deref s
    match r.TaskStream with
    | none => Go.pure (some (errors.New "task stream not connected"))
    | some stream => do
      let err ← Send env stream t
      match err with
      | some e => do
        assign s (fun r => { r with TaskStream := none })
        Go.pure (some e)
      | none => Go.pure none

/-- Method `func (s *Server) CopyFromRunningServer(old *Server)`, statement by statement:
each line reads a field through `old` and then stores it through `s`. -/
def CopyFromRunningServer (s old : Ptr) : Go Unit := do
  let o ← deref old; assign s (fun r => { r with Host := o.Host })
  let o ← deref old; assign s (fun r => { r with State := o.State })
  let o ← deref old; assign s (fun r => { r with GeoIP := o.GeoIP })
  let o ← deref old; assign s (fun r => { r with LastActive := o.LastActive })
  taskStreamMu old
  let o ← deref old; assign s (fun r => { r with TaskStream := o.TaskStream })
  taskStreamMu old
  let o ← deref old; assign s (fun r => { r with ConfigCache := o.ConfigCache })
  let o ← deref old; assign s (fun r => { r with PrevTransferInSnapshot := o.PrevTransferInSnapshot })
  let o ← deref old; assign s (fun r => { r with PrevTransferOutSnapshot := o.PrevTransferOutSnapshot })

/-- The closure `pri` of `SplitList`: `s.DisplayIndex == 0`. -/
def pri (s : Ptr) : Go Bool := do
  let r ← deref s
  Go.pure (r.DisplayIndex == 0)

/-- The loop of Go's `slices.IndexFunc`, at running index `i`. -/
def slices.IndexFunc.loop {α : Type} (f : α → Go Bool) : List α → Int → Go Int
  | [], _ => Go.pure (-1)
  | e :: rest, i => do
    if (← f e) then Go.pure i else slices.IndexFunc.loop f rest (i + 1)

/-- Go's `slices.IndexFunc`: the first index whose element satisfies `f`, or `-1`. -/
def slices.IndexFunc {α : Type} (x : List α) (f : α → Go Bool) : Go Int :=
  slices.IndexFunc.loop f x 0

/-- The slice expression `x[:i]`, panicking when `i` is out of range. -/
def sliceTo {α : Type} (x : List α) (i : Int) : Go (List α) :=
  if 0 ≤ i ∧ i ≤ x.length then Go.pure (x.take i.toNat) else Go.runtimePanicked

/-- The slice expression `x[i:]`, panicking when `i` is out of range. -/
def sliceFrom {α : Type} (x : List α) (i : Int) : Go (List α) :=
  if 0 ≤ i ∧ i ≤ x.length then Go.pure (x.drop i.toNat) else Go.runtimePanicked

/-- Method `func (s *Server) SplitList(x []*Server) ([]*Server, []*Server)`; a nil slice
is the empty list.  The receiver is not used. -/
def SplitList (_s : Ptr) (x : List Ptr) : Go (List Ptr × List Ptr) := do
  let i ← slices.IndexFunc x pri
  if i = -1 then
    Go.pure ([], x)
  else
    let a ← sliceTo x i
    let b ← sliceFrom x i
    Go.pure (a, b)

/-- Creating an object (`&T{}` or `make(chan any, n)`): it is stored at the next unused
address, and the reference to it is returned. -/
def alloc (o : Object) : Go Ptr := fun w =>
  Result.returned (some w.next)
    { w with objs := fun b => if b = w.next then some o else w.objs b, next := w.next + 1 }

/-- Function `func InitServer(s *Server)`. -/
def InitServer (s : Ptr) : Go Unit := do
  let p ← alloc Object.Host; assign s (fun r => { r with Host := p })
  let p ← alloc Object.HostState; assign s (fun r => { r with State := p })
  let p ← alloc Object.GeoIP; assign s (fun r => { r with GeoIP := p })
  let c ← alloc (Object.Chan 1 []); assign s (fun r => { r with ConfigCache := c })

/-- Go's `json.Unmarshal` (library `goccy/go-json`) at the two destination types used by
`AfterFind`.  Given the bytes and the value the destination holds, it gives the returned
error (`none` for nil) and the value the destination holds afterwards; as with
`encoding/json`, a call that returns an error may already have written to the
destination. -/
structure JsonLib where
  UnmarshalUint64s : String → List Nat → Option GoError × List Nat
  UnmarshalDomains :
    String → List (Nat × List String) → Option GoError × List (Nat × List String)

/-- Go's `log.Println`, with the operands already joined by spaces. -/
def log.Println (line : String) : Go Unit := fun w =>
  Result.returned () { w with logs := w.logs ++ [line] }

/-- Method `func (s *Server) AfterFind(tx *gorm.DB) error`; the result is the returned
`error`, `none` for nil.  `err` is what `json.Unmarshal` returned, `none` too when the raw
string is empty and the call is skipped; on an error the line is logged and the method
returns at once. -/
def AfterFind (js : JsonLib) (s : Ptr) (_tx : Ptr) : Go (Option GoError) := do
  let r ← deref s
  let err ← (if r.DDNSProfilesRaw ≠ "" then do
      let out := js.UnmarshalUint64s r.DDNSProfilesRaw r.DDNSProfiles
      assign s (fun r => { r with DDNSProfiles := out.2 })
      Go.pure out.1
    else Go.pure none)
  match err with
  | some e => do
    log.Println ("NEZHA>> Server.AfterFind: " ++ e.text)
    Go.pure none
  | none => do
    let r ← deref s
    let err ← (if r.OverrideDDNSDomainsRaw ≠ "" then do
        let out := js.UnmarshalDomains r.OverrideDDNSDomainsRaw r.OverrideDDNSDomains
        assign s (fun r => { r with OverrideDDNSDomains := out.2 })
        Go.pure out.1
      else Go.pure none)
    match err with
    | some e => do
      log.Println ("NEZHA>> Server.AfterFind: " ++ e.text)
      Go.pure none
    | none => Go.pure none

/-! ## Concrete states and transports, for evaluation -/

/-- A world whose every record is the zero `Server`; nothing sent or logged. -/
def world0 : World := ⟨fun _ => zeroServer, [], [], fun _ => none, 0⟩

/-- A world whose every record has stream `7` installed. -/
def worldBound : World :=
  ⟨fun _ => { zeroServer with TaskStream := some 7 }, [], [], fun _ => none, 0⟩

/-- A transport on which every `Send` succeeds. -/
def sendOk : Transport := fun _ _ _ => none

/-- A transport on which every `Send` fails with "EOF". -/
def sendFail : Transport := fun _ _ _ => some (errors.New "EOF")

/-- A world whose records at addresses `0, 1, 2, 3` have display indices `5, 3, 0, 0`. -/
def worldPinned : World :=
  ⟨fun a => { zeroServer with DisplayIndex := [5, 3, 0, 0].getD a 0 }, [], [],
    fun _ => none, 0⟩

/-- A world whose records all have display index `9`. -/
def worldAllPinned : World :=
  ⟨fun _ => { zeroServer with DisplayIndex := 9 }, [], [], fun _ => none, 0⟩

/-! ## Predicates of the statements, and further concrete states -/

/-- The list of records `xs` is ordered by descending `DisplayIndex` (ties allowed). -/
def Descending (w : World) (xs : List Addr) : Prop :=
  List.Pairwise (fun a b => (w.heap b).DisplayIndex ≤ (w.heap a).DisplayIndex) xs

instance (w : World) (xs : List Addr) : Decidable (Descending w xs) := by
  unfold Descending; infer_instance

/-- A world whose records at addresses `0, 1, 2` have display indices `5, 0, -1`. -/
def worldNegative : World :=
  ⟨fun a => { zeroServer with DisplayIndex := [5, 0, -1].getD a 0 }, [], [],
    fun _ => none, 0⟩

/-- A world whose every record is freshly loaded with the raw strings `p` (profile ids) and
`o` (override domains); the decoded fields hold their zero value. -/
def worldLoaded (p o : String) : World :=
  ⟨fun _ => { zeroServer with DDNSProfilesRaw := p, OverrideDDNSDomainsRaw := o }, [], [],
    fun _ => none, 0⟩

/-- A sample decoder.  Profile ids: `[]` and `[1,2]` decode; on `[1] x` the value `[1]` is
stored before the text after it is found and reported; anything else is reported with the
destination untouched.  Override domains: `{}` and `{"1":["a.example"]}` decode; anything
else is reported with the destination untouched. -/
def jsonSample : JsonLib where
  UnmarshalUint64s raw cur :=
    if raw = "[]" then (none, [])
    else if raw = "[1,2]" then (none, [1, 2])
    else if raw = "[1] x" then (some (errors.New "invalid character after top-level value"), [1])
    else (some (errors.New "invalid JSON"), cur)
  UnmarshalDomains raw cur :=
    if raw = "\x7b\x7d" then (none, [])
    else if raw = "\x7b\"1\":[\"a.example\"]\x7d" then (none, [(1, ["a.example"])])
    else (some (errors.New "invalid JSON"), cur)

/-- Record `r1` agrees with record `r` on every field other than `TaskStream`. -/
def sameButTaskStream (r r1 : Server) : Prop :=
  r1 = { r with TaskStream := r1.TaskStream }

instance (r r1 : Server) : Decidable (sameButTaskStream r r1) := by
  unfold sameButTaskStream; infer_instance

/-- The runtime references `Host`, `State`, `GeoIP` and `ConfigCache` of `r` are non-nil. -/
def RuntimeNonNil (r : Server) : Prop :=
  r.Host ≠ none ∧ r.State ≠ none ∧ r.GeoIP ≠ none ∧ r.ConfigCache ≠ none

instance (r : Server) : Decidable (RuntimeNonNil r) := by
  unfold RuntimeNonNil; infer_instance

/-- A world whose every record is running: runtime references set, stream `7` installed,
counters and configuration filled in; record `1` carries other configuration and other
runtime state than the rest. -/
def worldRunning : World :=
  ⟨fun a =>
    if a = 1 then
      { zeroServer with
        Common := ⟨1⟩, Name := "old", DisplayIndex := 4, LastActive := 99,
        Host := some 10, State := some 11, GeoIP := some 12, ConfigCache := some 13,
        TaskStream := some 7, PrevTransferInSnapshot := 5, PrevTransferOutSnapshot := 6 }
    else
      { zeroServer with
        Common := ⟨2⟩, Name := "new", DisplayIndex := 0,
        Host := some 20, State := some 21, GeoIP := some 22, ConfigCache := some 23 },
    [], [], fun _ => none, 30⟩

/-! ## Unfolding the sequencing of calls -/

theorem bind_def {α β : Type} (m : Go α) (f : α → Go β) : (m >>= f) = Go.bind m f := rfl

theorem pure_def {α : Type} (a : α) : (pure a : Go α) = Go.pure a := rfl

/-! ## Connection guard -/

/-- C1. `ClearTaskStreamIfMatch(h)` on any record returns, and afterwards the slot is nil
if the handle installed before the call was identical to `h`, and otherwise holds exactly
the handle it held before. -/
theorem ClearTaskStreamIfMatch_slot (w : World) (a : Addr) (h : Stream) :
    ∃ w1, ClearTaskStreamIfMatch (some a) h w = Result.returned () w1 ∧
      (w1.heap a).TaskStream =
        if (w.heap a).TaskStream = h then none else (w.heap a).TaskStream := by
  by_cases hm : (w.heap a).TaskStream = h <;>
    simp [ClearTaskStreamIfMatch, bind_def, pure_def, Go.bind, Go.pure, deref, assign,
      taskStreamMu, hm]

/-- C2. With `new` non-nil and not identical to `old`, the two atomic calls
`ClearTaskStreamIfMatch(old)` and `SetTaskStream(new)` leave the slot equal to `new`
in either order. -/
theorem stale_unbind_keeps_newer (w : World) (a : Addr) (old new : Stream)
    (hnew : new ≠ none) (hne : new ≠ old) :
    (∃ w1 w2, ClearTaskStreamIfMatch (some a) old w = Result.returned () w1 ∧
        SetTaskStream (some a) new w1 = Result.returned () w2 ∧
        (w2.heap a).TaskStream = new ∧ (w2.heap a).TaskStream ≠ none) ∧
    (∃ w1 w2, SetTaskStream (some a) new w = Result.returned () w1 ∧
        ClearTaskStreamIfMatch (some a) old w1 = Result.returned () w2 ∧
        (w2.heap a).TaskStream = new ∧ (w2.heap a).TaskStream ≠ none) := by
  constructor
  · by_cases hm : (w.heap a).TaskStream = old <;>
      simp [ClearTaskStreamIfMatch, SetTaskStream, bind_def, pure_def, Go.bind, Go.pure,
        deref, assign, taskStreamMu, hm, hnew]
  · simp [ClearTaskStreamIfMatch, SetTaskStream, bind_def, pure_def, Go.bind, Go.pure,
      deref, assign, taskStreamMu, hne, hnew]

/-- Witness of C2: stream `7` is installed, the stale owner unbinds `7` while `8` binds. -/
theorem stale_unbind_keeps_newer_witness :
    (some 8 : Stream) ≠ none ∧ (some 8 : Stream) ≠ some 7 ∧
    ((∃ w1 w2, ClearTaskStreamIfMatch (some 0) (some 7) worldBound = Result.returned () w1 ∧
        SetTaskStream (some 0) (some 8) w1 = Result.returned () w2 ∧
        (w2.heap 0).TaskStream = some 8 ∧ (w2.heap 0).TaskStream ≠ none) ∧
    (∃ w1 w2, SetTaskStream (some 0) (some 8) worldBound = Result.returned () w1 ∧
        ClearTaskStreamIfMatch (some 0) (some 7) w1 = Result.returned () w2 ∧
        (w2.heap 0).TaskStream = some 8 ∧ (w2.heap 0).TaskStream ≠ none)) :=
  ⟨by decide, by decide,
    stale_unbind_keeps_newer worldBound 0 (some 7) (some 8) (by decide) (by decide)⟩

/-- C3 as stated fails: on the zero record (slot nil) `SendTask(nil)` returns
"task is nil", not "task stream not connected". -/
theorem SendTask_unbound_nil_task_counterexample :
    (world0.heap 0).TaskStream = none ∧
    SendTask sendOk (some 0) none world0 =
      Result.returned (some (errors.New "task is nil")) world0 ∧
    SendTask sendOk (some 0) none world0 ≠
      Result.returned (some (errors.New "task stream not connected")) world0 := by
  refine ⟨rfl, rfl, ?_⟩
  intro h
  have h2 : Result.returned (some (errors.New "task is nil")) world0 =
      Result.returned (some (errors.New "task stream not connected")) world0 := h
  injection h2 with h3 _
  exact absurd h3 (by decide)

/-- C3 amended. On a record whose slot is nil, `SendTask` with a non-nil task returns
"task stream not connected", and with a nil task returns "task is nil"; either way the
whole state (every field of every record, the `Send` history) is unchanged. -/
theorem SendTask_unbound (env : Transport) (w : World) (a : Addr) (t : Task)
    (hslot : (w.heap a).TaskStream = none) :
    SendTask env (some a) (some t) w =
      Result.returned (some (errors.New "task stream not connected")) w ∧
    SendTask env (some a) none w = Result.returned (some (errors.New "task is nil")) w := by
  simp [SendTask, bind_def, Go.bind, Go.pure, deref, taskStreamMu, hslot]

/-- Witness of C3 amended, on the zero record. -/
theorem SendTask_unbound_witness :
    (world0.heap 0).TaskStream = none ∧
    SendTask sendFail (some 0) (some 1) world0 =
      Result.returned (some (errors.New "task stream not connected")) world0 ∧
    SendTask sendFail (some 0) none world0 =
      Result.returned (some (errors.New "task is nil")) world0 :=
  ⟨rfl, SendTask_unbound sendFail world0 0 1 rfl⟩

/-- C4. `SendTask(nil)` returns "task is nil" on every receiver and state, bound or not,
and the state is unchanged: no `Send` is recorded and no field of any record differs. -/
theorem SendTask_nil_task (env : Transport) (s : Ptr) (w : World) :
    SendTask env s none w = Result.returned (some (errors.New "task is nil")) w := rfl

/-- C5. When stream `k` is installed, the task is non-nil and `Send` returns the error `e`,
`SendTask` returns `e` and the slot is nil afterwards; a `SetTaskStream(h)` run after
that leaves the slot equal to `h`. -/
theorem SendTask_transmit_failure (env : Transport) (w : World) (a : Addr) (k : Handle)
    (t : Task) (e : GoError) (hslot : (w.heap a).TaskStream = some k)
    (hsend : env w.sends k t = some e) :
    ∃ w1, SendTask env (some a) (some t) w = Result.returned (some e) w1 ∧
      (w1.heap a).TaskStream = none ∧
      ∀ h : Stream, ∃ w2, SetTaskStream (some a) h w1 = Result.returned () w2 ∧
        (w2.heap a).TaskStream = h := by
  simp [SendTask, SetTaskStream, Send, bind_def, Go.bind, Go.pure, deref, assign,
    taskStreamMu, hslot, hsend]

/-- Witness of C5: stream `7` installed, every `Send` fails with "EOF". -/
theorem SendTask_transmit_failure_witness :
    (worldBound.heap 0).TaskStream = some 7 ∧
    sendFail worldBound.sends 7 1 = some (errors.New "EOF") ∧
    ∃ w1, SendTask sendFail (some 0) (some 1) worldBound =
        Result.returned (some (errors.New "EOF")) w1 ∧
      (w1.heap 0).TaskStream = none ∧
      ∀ h : Stream, ∃ w2, SetTaskStream (some 0) h w1 = Result.returned () w2 ∧
        (w2.heap 0).TaskStream = h :=
  ⟨rfl, rfl, SendTask_transmit_failure sendFail worldBound 0 7 1 (errors.New "EOF") rfl rfl⟩

/-- C6. When stream `k` is installed, the task is non-nil and `Send` succeeds, `SendTask`
returns nil and the slot still holds `k`. -/
theorem SendTask_success (env : Transport) (w : World) (a : Addr) (k : Handle) (t : Task)
    (hslot : (w.heap a).TaskStream = some k) (hsend : env w.sends k t = none) :
    ∃ w1, SendTask env (some a) (some t) w = Result.returned none w1 ∧
      (w1.heap a).TaskStream = some k ∧
      (w1.heap a).TaskStream = (w.heap a).TaskStream := by
  simp [SendTask, Send, bind_def, Go.bind, Go.pure, deref, taskStreamMu, hslot, hsend]

/-- Witness of C6: stream `7` installed, every `Send` succeeds. -/
theorem SendTask_success_witness :
    (worldBound.heap 0).TaskStream = some 7 ∧ sendOk worldBound.sends 7 1 = none ∧
    ∃ w1, SendTask sendOk (some 0) (some 1) worldBound = Result.returned none w1 ∧
      (w1.heap 0).TaskStream = some 7 ∧
      (w1.heap 0).TaskStream = (worldBound.heap 0).TaskStream :=
  ⟨rfl, rfl, SendTask_success sendOk worldBound 0 7 1 rfl rfl⟩

/-- C7. `SetTaskStream(h)` returns with the slot equal to `h` whatever was installed, and
`HasTaskStream` called next returns true exactly when `h` is non-nil; on any state
`HasTaskStream` returns true iff the slot is non-nil, and leaves the state unchanged. -/
theorem SetTaskStream_installs (w : World) (a : Addr) (h : Stream) :
    (∃ w1, SetTaskStream (some a) h w = Result.returned () w1 ∧
      (w1.heap a).TaskStream = h ∧
      ∃ b, HasTaskStream (some a) w1 = Result.returned b w1 ∧ (b = true ↔ h ≠ none)) ∧
    (∃ b, HasTaskStream (some a) w = Result.returned b w ∧
      (b = true ↔ (w.heap a).TaskStream ≠ none)) := by
  simp [SetTaskStream, HasTaskStream, bind_def, Go.bind, Go.pure, deref, assign, taskStreamMu]

/-! ## Hot-swap transplant -/

/-- C8. For non-nil `s` and `old` (aliased or not), `s.CopyFromRunningServer(old)` returns;
afterwards `Host`, `State`, `GeoIP`, `LastActive`, `TaskStream`, `ConfigCache` and both
transfer snapshots of `s` are the values `old` had before the call, and the record of `old`
is unchanged. -/
theorem CopyFromRunningServer_transplants (w : World) (a b : Addr) :
    ∃ w1, CopyFromRunningServer (some a) (some b) w = Result.returned () w1 ∧
      (w1.heap a).Host = (w.heap b).Host ∧
      (w1.heap a).State = (w.heap b).State ∧
      (w1.heap a).GeoIP = (w.heap b).GeoIP ∧
      (w1.heap a).LastActive = (w.heap b).LastActive ∧
      (w1.heap a).TaskStream = (w.heap b).TaskStream ∧
      (w1.heap a).ConfigCache = (w.heap b).ConfigCache ∧
      (w1.heap a).PrevTransferInSnapshot = (w.heap b).PrevTransferInSnapshot ∧
      (w1.heap a).PrevTransferOutSnapshot = (w.heap b).PrevTransferOutSnapshot ∧
      w1.heap b = w.heap b := by
  by_cases hab : b = a
  · subst hab
    simp [CopyFromRunningServer, bind_def, Go.bind, deref, assign, taskStreamMu]
  · simp [CopyFromRunningServer, bind_def, Go.bind, deref, assign, taskStreamMu, hab]

/-- C9 as stated fails: with a nil receiver, or a nil `old`, `CopyFromRunningServer`
does not return at all (so it returns no error): it panics on the nil dereference. -/
theorem CopyFromRunningServer_nil_counterexample :
    CopyFromRunningServer none (some 0) world0 = Result.panicked world0 ∧
    CopyFromRunningServer (some 0) none world0 = Result.panicked world0 ∧
    (¬ ∃ ret w1, CopyFromRunningServer none (some 0) world0 = Result.returned ret w1) ∧
    (¬ ∃ ret w1, CopyFromRunningServer (some 0) none world0 = Result.returned ret w1) := by
  refine ⟨rfl, rfl, ?_, ?_⟩
  · rintro ⟨ret, w1, h⟩
    have h2 : Result.panicked world0 = Result.returned ret w1 := h
    exact Result.noConfusion h2
  · rintro ⟨ret, w1, h⟩
    have h2 : Result.panicked world0 = Result.returned ret w1 := h
    exact Result.noConfusion h2

/-- C9 amended. Whenever `s` is nil or `old` is nil, `CopyFromRunningServer` panics (nil
pointer dereference) instead of returning, and the state at the panic is the state before
the call: no record is modified. -/
theorem CopyFromRunningServer_nil_panics (s old : Ptr) (w : World)
    (h : s = none ∨ old = none) :
    CopyFromRunningServer s old w = Result.panicked w := by
  cases old with
  | none => rfl
  | some b =>
    cases s with
    | none => rfl
    | some a => simp at h

/-- Witness of C9 amended: nil receiver, non-nil `old`. -/
theorem CopyFromRunningServer_nil_panics_witness :
    ((none : Ptr) = none ∨ (some 0 : Ptr) = none) ∧
    CopyFromRunningServer none (some 0) worldBound = Result.panicked worldBound :=
  ⟨Or.inl rfl, CopyFromRunningServer_nil_panics none (some 0) worldBound (Or.inl rfl)⟩

/-! ## Display partitioner -/

/-- On a non-nil record `pri` returns whether its `DisplayIndex` is `0`, state unchanged. -/
theorem pri_some (w : World) (a : Addr) :
    pri (some a) w = Result.returned ((w.heap a).DisplayIndex == 0) w := rfl

/-- The loop of `IndexFunc` over non-nil records stops at the first position whose record
has `DisplayIndex = 0`, returning the running index advanced by that position. -/
theorem IndexFunc_loop_found (w : World) :
    ∀ (xs : List Addr) (i : Nat) (k : Int) (hi : i < xs.length),
      (w.heap xs[i]).DisplayIndex = 0 →
      (∀ (j : Nat) (hj : j < i), (w.heap xs[j]).DisplayIndex ≠ 0) →
      slices.IndexFunc.loop pri (xs.map some) k w = Result.returned (k + i) w
  | [], i, _, hi, _, _ => absurd hi (Nat.not_lt_zero i)
  | a :: xs, 0, k, _, h0, _ => by
    have ha : (w.heap a).DisplayIndex = 0 := h0
    simp [slices.IndexFunc.loop, bind_def, Go.bind, Go.pure, pri_some, ha]
  | a :: xs, i + 1, k, hi, h0, hlt => by
    have ha : (w.heap a).DisplayIndex ≠ 0 := hlt 0 (Nat.succ_pos i)
    have hi2 : i < xs.length := Nat.lt_of_succ_lt_succ hi
    have ih := IndexFunc_loop_found w xs i (k + 1) hi2 h0
      (fun j hj => hlt (j + 1) (Nat.succ_lt_succ hj))
    simp [slices.IndexFunc.loop, bind_def, Go.bind, pri_some, ha, ih]
    omega

/-- The loop of `IndexFunc` over non-nil records returns `-1` when no record has
`DisplayIndex = 0`. -/
theorem IndexFunc_loop_none (w : World) :
    ∀ (xs : List Addr) (k : Int), (∀ a ∈ xs, (w.heap a).DisplayIndex ≠ 0) →
      slices.IndexFunc.loop pri (xs.map some) k w = Result.returned (-1) w
  | [], _, _ => rfl
  | a :: xs, k, h => by
    have ha : (w.heap a).DisplayIndex ≠ 0 := h a (List.mem_cons_self a xs)
    have ih := IndexFunc_loop_none w xs (k + 1) (fun b hb => h b (List.mem_cons_of_mem a hb))
    simp [slices.IndexFunc.loop, bind_def, Go.bind, pri_some, ha, ih]

/-- `SplitList` when the first `DisplayIndex = 0` is at position `i`. -/
theorem SplitList_found (s : Ptr) (w : World) (xs : List Addr) (i : Nat)
    (hi : i < xs.length) (h0 : (w.heap xs[i]).DisplayIndex = 0)
    (hlt : ∀ (j : Nat) (hj : j < i), (w.heap xs[j]).DisplayIndex ≠ 0) :
    SplitList s (xs.map some) w =
      Result.returned ((xs.take i).map some, (xs.drop i).map some) w := by
  have hloop := IndexFunc_loop_found w xs i 0 hi h0 hlt
  have hne : ¬ ((i : Int) = -1) := by omega
  have hle : i ≤ xs.length := Nat.le_of_lt hi
  simp [SplitList, slices.IndexFunc, sliceTo, sliceFrom, bind_def, Go.bind, Go.pure, hloop,
    hne, hle, List.map_take, List.map_drop]

/-- `SplitList` when no record has `DisplayIndex = 0`. -/
theorem SplitList_not_found (s : Ptr) (w : World) (xs : List Addr)
    (h : ∀ a ∈ xs, (w.heap a).DisplayIndex ≠ 0) :
    SplitList s (xs.map some) w = Result.returned ([], xs.map some) w := by
  have hloop := IndexFunc_loop_none w xs 0 h
  simp [SplitList, slices.IndexFunc, bind_def, Go.bind, Go.pure, hloop]

/-- C10. For a list `xs` of non-nil records: if `i` is the smallest position whose record
has `DisplayIndex = 0`, `SplitList` returns `(xs[0:i], xs[i:])`; if no record has
`DisplayIndex = 0` it returns `(empty, xs)`.  In particular display indices `[5, 3, 0, 0]`
give the first two records (indices `[5, 3]`) and the last two (`[0, 0]`), and `[0, 0, 0]`
gives the empty list and all of `xs`. -/
theorem SplitList_reference (s : Ptr) (w : World) (xs : List Addr) :
    (∀ (i : Nat) (hi : i < xs.length), (w.heap xs[i]).DisplayIndex = 0 →
      (∀ (j : Nat) (hj : j < i), (w.heap xs[j]).DisplayIndex ≠ 0) →
      SplitList s (xs.map some) w =
        Result.returned ((xs.take i).map some, (xs.drop i).map some) w) ∧
    ((∀ a ∈ xs, (w.heap a).DisplayIndex ≠ 0) →
      SplitList s (xs.map some) w = Result.returned ([], xs.map some) w) ∧
    (xs.map (fun a => (w.heap a).DisplayIndex) = [5, 3, 0, 0] →
      SplitList s (xs.map some) w =
        Result.returned ((xs.take 2).map some, (xs.drop 2).map some) w ∧
      (xs.take 2).map (fun a => (w.heap a).DisplayIndex) = [5, 3] ∧
      (xs.drop 2).map (fun a => (w.heap a).DisplayIndex) = [0, 0]) ∧
    (xs.map (fun a => (w.heap a).DisplayIndex) = [0, 0, 0] →
      SplitList s (xs.map some) w = Result.returned ([], xs.map some) w) := by
  refine ⟨fun i hi h0 hlt => SplitList_found s w xs i hi h0 hlt,
    fun h => SplitList_not_found s w xs h, ?_, ?_⟩
  · intro h
    have hlen : xs.length = 4 := by
      have := congrArg List.length h
      simpa using this
    refine ⟨SplitList_found s w xs 2 (by omega) ?_ ?_, ?_, ?_⟩
    · have := congrArg (fun l => l[2]?) h
      simp [List.getElem?_map, List.getElem?_eq_getElem, hlen] at this
      exact this
    · intro j hj
      have hj4 : j < xs.length := by omega
      have := congrArg (fun l => l[j]?) h
      simp only [List.getElem?_map, List.getElem?_eq_getElem hj4, Option.map_some'] at this
      have hj2 : j = 0 ∨ j = 1 := by omega
      rcases hj2 with rfl | rfl <;> simp at this <;> simp [this]
    · rw [List.map_take, h]; rfl
    · rw [List.map_drop, h]; rfl
  · intro h
    have hlen : xs.length = 3 := by
      have := congrArg List.length h
      simpa using this
    have h0 : (w.heap xs[0]).DisplayIndex = 0 := by
      have := congrArg (fun l => l[0]?) h
      simp [List.getElem?_map, List.getElem?_eq_getElem, hlen] at this
      exact this
    have := SplitList_found s w xs 0 (by omega) h0 (fun j hj => absurd hj (Nat.not_lt_zero j))
    simpa using this

/-- Witness of C10: display indices `[5, 3, 0, 0]` split at position `2`, and a list with
no zero index gives an empty first list. -/
theorem SplitList_reference_witness :
    SplitList none [some 0, some 1, some 2, some 3] worldPinned =
      Result.returned ([some 0, some 1], [some 2, some 3]) worldPinned ∧
    SplitList none [some 0, some 1] worldAllPinned =
      Result.returned ([], [some 0, some 1]) worldAllPinned :=
  ⟨(SplitList_reference none worldPinned [0, 1, 2, 3]).1 2 (by decide) (by decide)
      (by decide),
    (SplitList_reference none worldAllPinned [0, 1]).2.1 (by decide)⟩

/-- A list of records either has no record with `DisplayIndex = 0`, or has a first position
holding one. -/
theorem first_zero (w : World) :
    ∀ xs : List Addr, (∀ a ∈ xs, (w.heap a).DisplayIndex ≠ 0) ∨
      ∃ (i : Nat) (hi : i < xs.length), (w.heap xs[i]).DisplayIndex = 0 ∧
        ∀ (j : Nat) (hj : j < i), (w.heap xs[j]).DisplayIndex ≠ 0
  | [] => Or.inl (by simp)
  | a :: xs => by
    by_cases ha : (w.heap a).DisplayIndex = 0
    · exact Or.inr ⟨0, by simp, ha, fun j hj => absurd hj (Nat.not_lt_zero j)⟩
    · rcases first_zero w xs with h | ⟨i, hi, h0, hlt⟩
      · left
        intro b hb
        rcases List.mem_cons.1 hb with rfl | hb
        · exact ha
        · exact h b hb
      · right
        refine ⟨i + 1, by simp; omega, by simpa using h0, ?_⟩
        intro j hj
        cases j with
        | zero => simpa using ha
        | succ j => simpa using hlt j (by omega)

/-- C11 as stated fails: display indices `[9, 9]` are in descending order and hold no `0`,
so `SplitList` puts both pinned records in the second list; and with `[5, 0, -1]` the
second list holds the record with index `-1`, which differs from `0`. -/
theorem SplitList_pinned_counterexample :
    (Descending worldAllPinned [0, 1] ∧
      SplitList none [some 0, some 1] worldAllPinned =
        Result.returned ([], [some 0, some 1]) worldAllPinned ∧
      (worldAllPinned.heap 0).DisplayIndex ≠ 0) ∧
    (Descending worldNegative [0, 1, 2] ∧
      SplitList none [some 0, some 1, some 2] worldNegative =
        Result.returned ([some 0], [some 1, some 2]) worldNegative ∧
      (worldNegative.heap 2).DisplayIndex ≠ 0) :=
  ⟨⟨by decide, rfl, by decide⟩, ⟨by decide, rfl, by decide⟩⟩

/-- C11 amended. For a list of non-nil records in descending `DisplayIndex` order,
`SplitList` returns lists `a` and `b` such that every record of `a` is pinned
(`DisplayIndex ≠ 0`); if some record has `DisplayIndex = 0` then every record of `b` has
`DisplayIndex ≤ 0`, so is unpinned when no index is negative; and if no record has
`DisplayIndex = 0` then `a` is empty and `b` is the whole list. -/
theorem SplitList_pinned_split (s : Ptr) (w : World) (xs : List Addr)
    (hord : Descending w xs) :
    ∃ a b : List Addr, SplitList s (xs.map some) w =
        Result.returned (a.map some, b.map some) w ∧
      (∀ r ∈ a, (w.heap r).DisplayIndex ≠ 0) ∧
      ((∃ r ∈ xs, (w.heap r).DisplayIndex = 0) → ∀ r ∈ b, (w.heap r).DisplayIndex ≤ 0) ∧
      ((∃ r ∈ xs, (w.heap r).DisplayIndex = 0) → (∀ r ∈ xs, 0 ≤ (w.heap r).DisplayIndex) →
        ∀ r ∈ b, (w.heap r).DisplayIndex = 0) ∧
      ((∀ r ∈ xs, (w.heap r).DisplayIndex ≠ 0) → a = [] ∧ b = xs) := by
  rcases first_zero w xs with h | ⟨i, hi, h0, hlt⟩
  · refine ⟨[], xs, SplitList_not_found s w xs h, by simp, ?_, ?_, fun _ => ⟨rfl, rfl⟩⟩
    · rintro ⟨r, hr, hz⟩
      exact absurd hz (h r hr)
    · rintro ⟨r, hr, hz⟩
      exact absurd hz (h r hr)
  · have hle : ∀ r ∈ xs.drop i, (w.heap r).DisplayIndex ≤ 0 := by
      have hp : List.Pairwise (fun a b => (w.heap b).DisplayIndex ≤ (w.heap a).DisplayIndex)
          (xs.drop i) := List.Pairwise.sublist (List.drop_sublist i xs) hord
      rw [List.drop_eq_getElem_cons hi] at hp ⊢
      intro r hr
      rcases List.mem_cons.1 hr with rfl | hr
      · exact le_of_eq h0
      · have := (List.pairwise_cons.1 hp).1 r hr
        omega
    refine ⟨xs.take i, xs.drop i, SplitList_found s w xs i hi h0 hlt, ?_, fun _ => hle, ?_, ?_⟩
    · intro r hr
      obtain ⟨j, hj, rfl⟩ := List.mem_take_iff_getElem.1 hr
      exact hlt j (by omega)
    · intro _ hnn r hr
      have h1 := hle r hr
      have h2 := hnn r (List.mem_of_mem_drop hr)
      omega
    · intro hall
      exact absurd h0 (hall _ (List.getElem_mem hi))

/-- Witness of C11 amended: display indices `[5, 3, 0, 0]`. -/
theorem SplitList_pinned_split_witness :
    Descending worldPinned [0, 1, 2, 3] ∧
    ∃ a b : List Addr, SplitList none ([0, 1, 2, 3].map some) worldPinned =
        Result.returned (a.map some, b.map some) worldPinned ∧
      (∀ r ∈ a, (worldPinned.heap r).DisplayIndex ≠ 0) ∧
      ((∃ r ∈ [0, 1, 2, 3], (worldPinned.heap r).DisplayIndex = 0) →
        ∀ r ∈ b, (worldPinned.heap r).DisplayIndex ≤ 0) ∧
      ((∃ r ∈ [0, 1, 2, 3], (worldPinned.heap r).DisplayIndex = 0) →
        (∀ r ∈ [0, 1, 2, 3], 0 ≤ (worldPinned.heap r).DisplayIndex) →
        ∀ r ∈ b, (worldPinned.heap r).DisplayIndex = 0) ∧
      ((∀ r ∈ [0, 1, 2, 3], (worldPinned.heap r).DisplayIndex ≠ 0) →
        a = [] ∧ b = [0, 1, 2, 3]) :=
  ⟨by decide, SplitList_pinned_split none worldPinned [0, 1, 2, 3] (by decide)⟩

/-- C18. For every list `xs` of non-nil records, ordered or not, `SplitList` returns lists
`a` and `b` whose concatenation is exactly `xs`, so their lengths add up to that of `xs`;
the state is unchanged. -/
theorem SplitList_append (s : Ptr) (w : World) (xs : List Addr) :
    ∃ a b : List Ptr, SplitList s (xs.map some) w = Result.returned (a, b) w ∧
      a ++ b = xs.map some ∧ a.length + b.length = (xs.map some).length := by
  rcases first_zero w xs with h | ⟨i, hi, h0, hlt⟩
  · exact ⟨[], xs.map some, SplitList_not_found s w xs h, by simp, by simp⟩
  · refine ⟨(xs.take i).map some, (xs.drop i).map some, SplitList_found s w xs i hi h0 hlt,
      ?_, ?_⟩
    · rw [← List.map_append, List.take_append_drop]
    · rw [← List.length_append, ← List.map_append, List.take_append_drop]

/-! ## Decoding of the raw strings on load -/

/-- C12. On a non-nil record `AfterFind` returns, and returns a nil error, whatever the two raw
strings hold and whatever `json.Unmarshal` does with them. -/
theorem AfterFind_no_error (js : JsonLib) (w : World) (a : Addr) (tx : Ptr) :
    ∃ w1, AfterFind js (some a) tx w = Result.returned none w1 := by
  rcases hP : js.UnmarshalUint64s (w.heap a).DDNSProfilesRaw (w.heap a).DDNSProfiles
    with ⟨e1, v1⟩
  rcases hO : js.UnmarshalDomains (w.heap a).OverrideDDNSDomainsRaw
    (w.heap a).OverrideDDNSDomains with ⟨e2, v2⟩
  by_cases hp : (w.heap a).DDNSProfilesRaw = "" <;>
    by_cases ho : (w.heap a).OverrideDDNSDomainsRaw = "" <;>
    cases e1 <;> cases e2 <;>
    simp [AfterFind, bind_def, Go.bind, Go.pure, deref, assign, log.Println, hP, hO, hp, ho]

/-- C13 as stated fails.  With an empty `DDNSProfilesRaw` and a malformed
`OverrideDDNSDomainsRaw` a log entry is written; and with the malformed `DDNSProfilesRaw`
`[1] x`, whose decoding stores `[1]` before it reports the error, `DDNSProfiles` is not
empty after `AfterFind`. -/
theorem AfterFind_profiles_counterexample :
    ((worldLoaded "" "x").heap 0).DDNSProfiles = [] ∧
    (∃ w1, AfterFind jsonSample (some 0) none (worldLoaded "" "x") = Result.returned none w1 ∧
      w1.logs = ["NEZHA>> Server.AfterFind: invalid JSON"]) ∧
    ((worldLoaded "[1] x" "").heap 0).DDNSProfiles = [] ∧
    (jsonSample.UnmarshalUint64s "[1] x" []).1 ≠ none ∧
    (∃ w1, AfterFind jsonSample (some 0) none (worldLoaded "[1] x" "") =
        Result.returned none w1 ∧
      (w1.heap 0).DDNSProfiles = [1] ∧ (w1.heap 0).DDNSProfiles ≠ []) :=
  ⟨rfl, ⟨_, rfl, rfl⟩, rfl, by decide, ⟨_, rfl, rfl, by decide⟩⟩

/-- C13 amended. On a freshly constructed record (`DDNSProfiles` empty): if `DDNSProfilesRaw`
is empty, `AfterFind` leaves `DDNSProfiles` empty and writes no log entry other than the
one for a failed decode of a non-empty `OverrideDDNSDomainsRaw`; if `DDNSProfilesRaw` is
non-empty and `json.Unmarshal` returns the error `e` for it, exactly one line is logged, for
`e`, and `DDNSProfiles` holds what the failed call left in it, so it is empty when that call
did not write to its destination. -/
theorem AfterFind_profiles (js : JsonLib) (w : World) (a : Addr) (tx : Ptr)
    (hfresh : (w.heap a).DDNSProfiles = []) :
    ((w.heap a).DDNSProfilesRaw = "" →
      ∃ w1, AfterFind js (some a) tx w = Result.returned none w1 ∧
        (w1.heap a).DDNSProfiles = [] ∧
        w1.logs = w.logs ++
          (if (w.heap a).OverrideDDNSDomainsRaw = "" then []
           else match (js.UnmarshalDomains (w.heap a).OverrideDDNSDomainsRaw
              (w.heap a).OverrideDDNSDomains).1 with
            | some e => ["NEZHA>> Server.AfterFind: " ++ e.text]
            | none => [])) ∧
    ((w.heap a).DDNSProfilesRaw ≠ "" →
      ∀ e, (js.UnmarshalUint64s (w.heap a).DDNSProfilesRaw []).1 = some e →
      ∃ w1, AfterFind js (some a) tx w = Result.returned none w1 ∧
        (w1.heap a).DDNSProfiles = (js.UnmarshalUint64s (w.heap a).DDNSProfilesRaw []).2 ∧
        ((js.UnmarshalUint64s (w.heap a).DDNSProfilesRaw []).2 = [] →
          (w1.heap a).DDNSProfiles = []) ∧
        w1.logs = w.logs ++ ["NEZHA>> Server.AfterFind: " ++ e.text]) := by
  rcases hO : js.UnmarshalDomains (w.heap a).OverrideDDNSDomainsRaw
    (w.heap a).OverrideDDNSDomains with ⟨e2, v2⟩
  constructor
  · intro hp
    by_cases ho : (w.heap a).OverrideDDNSDomainsRaw = "" <;> cases e2 <;>
      simp [AfterFind, bind_def, Go.bind, Go.pure, deref, assign, log.Println, hO, hp, ho,
        hfresh]
  · intro hp e he
    rcases hP : js.UnmarshalUint64s (w.heap a).DDNSProfilesRaw [] with ⟨e1, v1⟩
    rw [hP] at he
    simp only at he
    subst he
    simp [AfterFind, bind_def, Go.bind, Go.pure, deref, assign, log.Println, hP, hp, hfresh]

/-- Witness of C13 amended: both raw strings empty, and the raw profile list `x`. -/
theorem AfterFind_profiles_witness :
    ((worldLoaded "" "").heap 0).DDNSProfiles = [] ∧
    (∃ w1, AfterFind jsonSample (some 0) none (worldLoaded "" "") = Result.returned none w1 ∧
      (w1.heap 0).DDNSProfiles = [] ∧
      w1.logs = (worldLoaded "" "").logs ++
        (if ((worldLoaded "" "").heap 0).OverrideDDNSDomainsRaw = "" then []
         else match (jsonSample.UnmarshalDomains
            ((worldLoaded "" "").heap 0).OverrideDDNSDomainsRaw
            ((worldLoaded "" "").heap 0).OverrideDDNSDomains).1 with
          | some e => ["NEZHA>> Server.AfterFind: " ++ e.text]
          | none => [])) ∧
    ((worldLoaded "x" "").heap 0).DDNSProfiles = [] ∧
    (∃ w1, AfterFind jsonSample (some 0) none (worldLoaded "x" "") = Result.returned none w1 ∧
      (w1.heap 0).DDNSProfiles =
        (jsonSample.UnmarshalUint64s ((worldLoaded "x" "").heap 0).DDNSProfilesRaw []).2 ∧
      ((jsonSample.UnmarshalUint64s ((worldLoaded "x" "").heap 0).DDNSProfilesRaw []).2 = [] →
        (w1.heap 0).DDNSProfiles = []) ∧
      w1.logs = (worldLoaded "x" "").logs ++
        ["NEZHA>> Server.AfterFind: " ++ (errors.New "invalid JSON").text]) :=
  ⟨rfl, (AfterFind_profiles jsonSample (worldLoaded "" "") 0 none rfl).1 rfl, rfl,
    (AfterFind_profiles jsonSample (worldLoaded "x" "") 0 none rfl).2 (by decide)
      (errors.New "invalid JSON") rfl⟩

/-- C14 at the failing input: `DDNSProfilesRaw` is the malformed `x` and
`OverrideDDNSDomainsRaw` is the well-formed `{"1":["a.example"]}`.  The override string
decodes to one entry, yet after `AfterFind` the mapping is still empty: the method logged
the profile error and returned before it reached the override string. -/
theorem AfterFind_domains_skipped :
    jsonSample.UnmarshalDomains "\x7b\"1\":[\"a.example\"]\x7d" [] =
      (none, [(1, ["a.example"])]) ∧
    (jsonSample.UnmarshalUint64s "x" []).1 = some (errors.New "invalid JSON") ∧
    ∃ w1, AfterFind jsonSample (some 0) none
        (worldLoaded "x" "\x7b\"1\":[\"a.example\"]\x7d") = Result.returned none w1 ∧
      (w1.heap 0).OverrideDDNSDomains = [] ∧
      w1.logs = ["NEZHA>> Server.AfterFind: invalid JSON"] :=
  ⟨rfl, rfl, _, rfl, rfl, rfl⟩

/-! ## Idempotence, transmit count, frame and runtime references -/

/-- C15. For non-nil `s` and `old`, running `s.CopyFromRunningServer(old)` a second time
right after the first leaves the whole state, so both records, exactly as the first call
left it. -/
theorem CopyFromRunningServer_idempotent (w : World) (a b : Addr) :
    ∃ w1 w2, CopyFromRunningServer (some a) (some b) w = Result.returned () w1 ∧
      CopyFromRunningServer (some a) (some b) w1 = Result.returned () w2 ∧
      w2 = w1 ∧ w2.heap a = w1.heap a ∧ w2.heap b = w1.heap b := by
  by_cases hab : b = a
  · subst hab
    simp [CopyFromRunningServer, bind_def, Go.bind, deref, assign, taskStreamMu]
    funext c
    by_cases hc : c = b <;> simp [hc]
  · simp [CopyFromRunningServer, bind_def, Go.bind, deref, assign, taskStreamMu, hab]
    funext c
    by_cases hc : c = a <;> simp [hc]

/-- The outcome of `SendTask` with a non-nil task when no stream is installed. -/
theorem SendTask_eq_unbound (env : Transport) (w : World) (a : Addr) (t : Task)
    (hs : (w.heap a).TaskStream = none) :
    SendTask env (some a) (some t) w =
      Result.returned (some (errors.New "task stream not connected")) w := by
  simp [SendTask, bind_def, Go.bind, Go.pure, deref, taskStreamMu, hs]

/-- The outcome of `SendTask` when the stream is installed and `Send` succeeds. -/
theorem SendTask_eq_sent (env : Transport) (w : World) (a : Addr) (k : Handle) (t : Task)
    (hs : (w.heap a).TaskStream = some k) (he : env w.sends k t = none) :
    SendTask env (some a) (some t) w =
      Result.returned none { w with sends := w.sends ++ [(k, t)] } := by
  simp [SendTask, Send, bind_def, Go.bind, Go.pure, deref, taskStreamMu, hs, he]

/-- The outcome of `SendTask` when the stream is installed and `Send` fails with `e`. -/
theorem SendTask_eq_failed (env : Transport) (w : World) (a : Addr) (k : Handle) (t : Task)
    (e : GoError) (hs : (w.heap a).TaskStream = some k) (he : env w.sends k t = some e) :
    SendTask env (some a) (some t) w =
      Result.returned (some e)
        { w with
          heap := fun b => if b = a then { w.heap a with TaskStream := none } else w.heap b,
          sends := w.sends ++ [(k, t)] } := by
  simp [SendTask, Send, bind_def, Go.bind, Go.pure, deref, assign, taskStreamMu, hs, he]

/-- C16. `SendTask` on a non-nil record returns, having called `Send` exactly once, on the
installed stream and with the given task, when the task is non-nil and the slot is non-nil,
and not at all otherwise. -/
theorem SendTask_sends_once (env : Transport) (w : World) (a : Addr) (task : Option Task) :
    ∃ ret w1, SendTask env (some a) task w = Result.returned ret w1 ∧
      w1.sends = w.sends ++
        (match task, (w.heap a).TaskStream with
          | some t, some k => [(k, t)]
          | _, _ => []) := by
  cases task with
  | none => exact ⟨_, _, rfl, by simp⟩
  | some t =>
    rcases hs : (w.heap a).TaskStream with _ | k
    · exact ⟨_, _, SendTask_eq_unbound env w a t hs, by simp⟩
    · rcases he : env w.sends k t with _ | e
      · exact ⟨_, _, SendTask_eq_sent env w a k t hs he, rfl⟩
      · exact ⟨_, _, SendTask_eq_failed env w a k t e hs he, rfl⟩

/-- C17. On a non-nil record: `HasTaskStream` leaves the state unchanged; `SetTaskStream`,
`ClearTaskStreamIfMatch` and `SendTask` leave every field other than `TaskStream` unchanged
in every record; after `ClearTaskStreamIfMatch` the slot is its previous value or nil; and
after `SendTask` the slot is its previous value, or it is nil and the call was a transmit
failure (non-nil task, stream installed, `Send` returned the error that is returned). -/
theorem connection_guard_frame (env : Transport) (w : World) (a : Addr) (h : Stream)
    (task : Option Task) :
    (∃ r, HasTaskStream (some a) w = Result.returned r w) ∧
    (∃ w1, SetTaskStream (some a) h w = Result.returned () w1 ∧
      ∀ c, sameButTaskStream (w.heap c) (w1.heap c)) ∧
    (∃ w1, ClearTaskStreamIfMatch (some a) h w = Result.returned () w1 ∧
      (∀ c, sameButTaskStream (w.heap c) (w1.heap c)) ∧
      ((w1.heap a).TaskStream = (w.heap a).TaskStream ∨ (w1.heap a).TaskStream = none)) ∧
    (∃ ret w1, SendTask env (some a) task w = Result.returned ret w1 ∧
      (∀ c, sameButTaskStream (w.heap c) (w1.heap c)) ∧
      ((w1.heap a).TaskStream = (w.heap a).TaskStream ∨
        ((w1.heap a).TaskStream = none ∧
          ∃ k t e, task = some t ∧ (w.heap a).TaskStream = some k ∧
            env w.sends k t = some e ∧ ret = some e))) := by
  refine ⟨⟨_, rfl⟩, ?_, ?_, ?_⟩
  · refine ⟨_, rfl, ?_⟩
    intro c
    by_cases hc : c = a <;> simp [sameButTaskStream, hc]
  · by_cases hm : (w.heap a).TaskStream = h
    · simp only [ClearTaskStreamIfMatch, bind_def, pure_def, Go.bind, Go.pure, deref, assign,
        taskStreamMu, hm, if_true]
      refine ⟨_, rfl, ?_, by simp⟩
      intro c
      by_cases hc : c = a <;> simp [sameButTaskStream, hc]
    · simp only [ClearTaskStreamIfMatch, bind_def, pure_def, Go.bind, Go.pure, deref, assign,
        taskStreamMu, hm, if_false]
      exact ⟨_, rfl, fun c => by simp [sameButTaskStream], Or.inl rfl⟩
  · cases task with
    | none => exact ⟨_, _, rfl, fun c => by simp [sameButTaskStream], Or.inl rfl⟩
    | some t =>
      rcases hs : (w.heap a).TaskStream with _ | k
      · exact ⟨_, _, SendTask_eq_unbound env w a t hs,
          fun c => by simp [sameButTaskStream], Or.inl hs⟩
      · rcases he : env w.sends k t with _ | e
        · exact ⟨_, _, SendTask_eq_sent env w a k t hs he,
            fun c => by simp [sameButTaskStream], Or.inl hs⟩
        · refine ⟨_, _, SendTask_eq_failed env w a k t e hs he, ?_,
            Or.inr ⟨by simp, k, t, e, rfl, rfl, he, rfl⟩⟩
          intro c
          by_cases hc : c = a <;> simp [sameButTaskStream, hc]

/-- Non-nil runtime references stay non-nil when only `TaskStream` changes. -/
theorem RuntimeNonNil_of_same (r r1 : Server) (hs : sameButTaskStream r r1)
    (h : RuntimeNonNil r) : RuntimeNonNil r1 := by
  unfold sameButTaskStream at hs
  rw [hs]
  exact h

/-- C19. After `InitServer(s)` on a non-nil record, `Host`, `State` and `GeoIP` point to
newly created empty structures and `ConfigCache` to a newly created empty channel of
capacity one, all non-nil; if the four references of a record are non-nil they stay so
across `SetTaskStream`, `ClearTaskStreamIfMatch` and `SendTask`; and if they are non-nil
in `old` they are non-nil in `s` after `s.CopyFromRunningServer(old)`. -/
theorem runtime_references_non_nil (env : Transport) (w : World) (a b : Addr) (h : Stream)
    (task : Option Task) :
    (∃ w1, InitServer (some a) w = Result.returned () w1 ∧
      (w1.heap a).Host = some w.next ∧ w1.objs w.next = some Object.Host ∧
      (w1.heap a).State = some (w.next + 1) ∧ w1.objs (w.next + 1) = some Object.HostState ∧
      (w1.heap a).GeoIP = some (w.next + 2) ∧ w1.objs (w.next + 2) = some Object.GeoIP ∧
      (w1.heap a).ConfigCache = some (w.next + 3) ∧
      w1.objs (w.next + 3) = some (Object.Chan 1 []) ∧
      RuntimeNonNil (w1.heap a)) ∧
    (RuntimeNonNil (w.heap a) →
      (∃ w1, SetTaskStream (some a) h w = Result.returned () w1 ∧ RuntimeNonNil (w1.heap a)) ∧
      (∃ w1, ClearTaskStreamIfMatch (some a) h w = Result.returned () w1 ∧
        RuntimeNonNil (w1.heap a)) ∧
      (∃ ret w1, SendTask env (some a) task w = Result.returned ret w1 ∧
        RuntimeNonNil (w1.heap a))) ∧
    (RuntimeNonNil (w.heap b) →
      ∃ w1, CopyFromRunningServer (some a) (some b) w = Result.returned () w1 ∧
        RuntimeNonNil (w1.heap a)) := by
  refine ⟨?_, ?_, ?_⟩
  · have h1 : ¬ (w.next = w.next + 1 + 1 + 1) := by omega
    have h2 : ¬ (w.next = w.next + 1 + 1) := by omega
    simp [InitServer, alloc, bind_def, Go.bind, deref, assign, RuntimeNonNil, h1, h2]
  · intro hn
    refine ⟨⟨_, rfl, ?_⟩, ?_, ?_⟩
    · exact RuntimeNonNil_of_same (w.heap a) _ (by simp [sameButTaskStream]) hn
    · by_cases hm : (w.heap a).TaskStream = h
      · simp only [ClearTaskStreamIfMatch, bind_def, pure_def, Go.bind, Go.pure, deref,
          assign, taskStreamMu, hm, if_true]
        exact ⟨_, rfl, RuntimeNonNil_of_same (w.heap a) _ (by simp [sameButTaskStream]) hn⟩
      · simp only [ClearTaskStreamIfMatch, bind_def, pure_def, Go.bind, Go.pure, deref,
          assign, taskStreamMu, hm, if_false]
        exact ⟨_, rfl, hn⟩
    · cases task with
      | none => exact ⟨_, _, rfl, hn⟩
      | some t =>
        rcases hs : (w.heap a).TaskStream with _ | k
        · exact ⟨_, _, SendTask_eq_unbound env w a t hs, hn⟩
        · rcases he : env w.sends k t with _ | e
          · exact ⟨_, _, SendTask_eq_sent env w a k t hs he, hn⟩
          · exact ⟨_, _, SendTask_eq_failed env w a k t e hs he,
              RuntimeNonNil_of_same (w.heap a) _ (by simp [sameButTaskStream]) hn⟩
  · intro hn
    unfold RuntimeNonNil at hn
    by_cases hab : b = a
    · subst hab
      simp [CopyFromRunningServer, bind_def, Go.bind, deref, assign, taskStreamMu,
        RuntimeNonNil, hn]
    · simp [CopyFromRunningServer, bind_def, Go.bind, deref, assign, taskStreamMu,
        RuntimeNonNil, hab, hn]

/-- Witness of C19: a running record `0`, stream `8` bound and unbound, task `1` sent on a
failing transport, and the runtime state of record `1` copied into record `0`. -/
theorem runtime_references_non_nil_witness :
    RuntimeNonNil (worldRunning.heap 0) ∧
    ((∃ w1, SetTaskStream (some 0) (some 8) worldRunning = Result.returned () w1 ∧
        RuntimeNonNil (w1.heap 0)) ∧
      (∃ w1, ClearTaskStreamIfMatch (some 0) (some 8) worldRunning = Result.returned () w1 ∧
        RuntimeNonNil (w1.heap 0)) ∧
      (∃ ret w1, SendTask sendFail (some 0) (some 1) worldRunning = Result.returned ret w1 ∧
        RuntimeNonNil (w1.heap 0))) ∧
    RuntimeNonNil (worldRunning.heap 1) ∧
    (∃ w1, CopyFromRunningServer (some 0) (some 1) worldRunning = Result.returned () w1 ∧
      RuntimeNonNil (w1.heap 0)) :=
  ⟨by decide,
    (runtime_references_non_nil sendFail worldRunning 0 1 (some 8) (some 1)).2.1 (by decide),
    by decide,
    (runtime_references_non_nil sendFail worldRunning 0 1 (some 8) (some 1)).2.2 (by decide)⟩

/-- C20. For non-nil `s` and `old`, `s.CopyFromRunningServer(old)` leaves the persisted and
decoded configuration of `s` as it was, whatever `old` holds in those fields: the embedded
`Common`, `Name`, `UUID`, `Note`, `PublicNote`, `DisplayIndex`, `HideForGuest`, `EnableDDNS`,
`DDNSProfilesRaw`, `OverrideDDNSDomainsRaw`, `DDNSProfiles` and `OverrideDDNSDomains`. -/
theorem CopyFromRunningServer_keeps_config (w : World) (a b : Addr) :
    ∃ w1, CopyFromRunningServer (some a) (some b) w = Result.returned () w1 ∧
      (w1.heap a).Common = (w.heap a).Common ∧
      (w1.heap a).Name = (w.heap a).Name ∧
      (w1.heap a).UUID = (w.heap a).UUID ∧
      (w1.heap a).Note = (w.heap a).Note ∧
      (w1.heap a).PublicNote = (w.heap a).PublicNote ∧
      (w1.heap a).DisplayIndex = (w.heap a).DisplayIndex ∧
      (w1.heap a).HideForGuest = (w.heap a).HideForGuest ∧
      (w1.heap a).EnableDDNS = (w.heap a).EnableDDNS ∧
      (w1.heap a).DDNSProfilesRaw = (w.heap a).DDNSProfilesRaw ∧
      (w1.heap a).OverrideDDNSDomainsRaw = (w.heap a).OverrideDDNSDomainsRaw ∧
      (w1.heap a).DDNSProfiles = (w.heap a).DDNSProfiles ∧
      (w1.heap a).OverrideDDNSDomains = (w.heap a).OverrideDDNSDomains := by
  by_cases hab : b = a
  · subst hab
    simp [CopyFromRunningServer, bind_def, Go.bind, deref, assign, taskStreamMu]
  · simp [CopyFromRunningServer, bind_def, Go.bind, deref, assign, taskStreamMu, hab]

end model
